import Mathlib

/-!
# Verification of the discord-mcp resolution and dispatch core (src/index.js)

Shallow embedding of the multi-guild implementation in `src/index.js`.
JavaScript strings are sequences of UTF-16 code units; we model them as
`List Nat` (one `Nat` per code unit).  Case conversion (`toLowerCase` /
`toUpperCase`) is modelled on the ASCII range, which covers every
identifier class this program manipulates (aliases, snowflake IDs,
channel and user names as configured).  JavaScript objects parsed from
JSON are modelled as association lists in key-insertion order;
`obj[k]` is `List.lookup`, and JS truthiness of a string value is
"the list is non-empty".
-/

/-- Code units of a Lean string literal, used to transcribe the JS string
literals appearing in `src/index.js`. -/
def str (s : String) : List Nat := s.data.map Char.toNat

/-- `c.toLowerCase()` on one ASCII code unit. -/
def lowerUnit (u : Nat) : Nat := if 65 ≤ u ∧ u ≤ 90 then u + 32 else u

/-- `c.toUpperCase()` on one ASCII code unit. -/
def upperUnit (u : Nat) : Nat := if 97 ≤ u ∧ u ≤ 122 then u - 32 else u

/-- `s.toLowerCase()` (ASCII range). -/
def jsToLower (l : List Nat) : List Nat := l.map lowerUnit

/-- `s.toUpperCase()` (ASCII range). -/
def jsToUpper (l : List Nat) : List Nat := l.map upperUnit

/-- Is the code unit an ASCII digit (`\d` for these inputs)? -/
def isDigitUnit (u : Nat) : Bool := decide (48 ≤ u ∧ u ≤ 57)

/-- `/^\d+$/.test(s)`: non-empty and all digits. -/
def jsAllDigits (l : List Nat) : Bool := !l.isEmpty && l.all isDigitUnit

/-- `s.replace(/^#/, "")`: drop a single leading `'#'` (code unit 35). -/
def stripHash (l : List Nat) : List Nat :=
  match l with
  | 35 :: rest => rest
  | _ => l

/-- JS truthiness of an optional string argument (`undefined` and `""` are
falsy). -/
def jsTruthy (o : Option (List Nat)) : Bool :=
  match o with
  | some s => !s.isEmpty
  | none => false

/-- `x || undefined` for an optional string: collapse `""` to absent. -/
def jsOrUndef (o : Option (List Nat)) : Option (List Nat) :=
  match o with
  | some s => if s.isEmpty then none else some s
  | none => none

/-- `x || d` for an optional number argument (`undefined` and `0` are falsy). -/
def jsNumOr (o : Option Nat) (d : Nat) : Nat :=
  match o with
  | some n => if n = 0 then d else n
  | none => d

/-- `keys.join(", ")`. -/
def joinComma : List (List Nat) → List Nat
  | [] => []
  | [k] => k
  | k :: rest => k ++ str ", " ++ joinComma rest

/-- `parts.join("\n")`. -/
def joinNewline : List (List Nat) → List Nat
  | [] => []
  | [p] => p
  | p :: rest => p ++ str "\n" ++ joinNewline rest

/-- `path.basename(p)`: the component after the last `'/'` (code unit 47). -/
def basename (l : List Nat) : List Nat :=
  l.foldl (fun acc u => if u = 47 then [] else acc ++ [u]) []

/-! ## Remote entities (the discord.js cache views) -/

/-- A remote user handle (`discord.users` entries). -/
structure User where
  id : List Nat
  username : List Nat
  globalName : Option (List Nat)
  bot : Bool
deriving DecidableEq

/-- A guild member (`guild.members` entries). -/
structure Member where
  user : User
  displayName : List Nat
deriving DecidableEq

/-- A message attachment. -/
structure Attachment where
  url : List Nat
deriving DecidableEq

/-- A channel message as fetched (`channel.messages.fetch`).  `createdAtIso`
is the ISO rendering `m.createdAt.toISOString()` of its creation time. -/
structure Message where
  author : User
  content : List Nat
  createdAtIso : List Nat
  attachments : List Attachment
deriving DecidableEq

/-- A channel in a guild's channel cache. -/
structure Channel where
  id : List Nat
  name : List Nat
  type : Nat
  textBased : Bool
  thread : Bool
  parentName : Option (List Nat)
deriving DecidableEq

/-- A guild in `discord.guilds.cache`.  `channelsCache` is the channel cache
before `guild.channels.fetch()`, `channelsFetched` the cache after it. -/
structure Guild where
  id : List Nat
  name : List Nat
  channelsCache : List Channel
  channelsFetched : List Channel
deriving DecidableEq

/-- One file attached to a send: either built from a local path
(`new AttachmentBuilder(filePath)`) or from an in-memory buffer with an
explicit name (`new AttachmentBuilder(Buffer.from(code), { name })`). -/
inductive AttachSpec where
  | fromPath (p : List Nat)
  | fromBytes (name : List Nat) (bytes : List Nat)
deriving DecidableEq

/-- The embed built by the send-image tool. -/
structure Embed where
  image : List Nat
  title : Option (List Nat)
deriving DecidableEq

/-- The argument of one `channel.send(...)` / `dmChannel.send(...)` call. -/
structure SendPayload where
  content : Option (List Nat)
  files : List AttachSpec
  embeds : List Embed
deriving DecidableEq

/-- The process state a single tool invocation runs against: configuration
(`registry` = `GUILDS`, `userMappings` = `USER_MAPPINGS`,
`defaultChannelId` = `DISCORD_DEFAULT_CHANNEL_ID`), the readiness flag,
the live caches, the local filesystem (`files` = paths that exist), and the
remote's responses to fetches/sends (function-valued fields; `sendOutcome`
and `dmOutcome` return `some errMsg` when the remote call fails). -/
structure World where
  ready : Bool
  registry : List (List Nat × List Nat)
  userMappings : List (List Nat × List Nat)
  defaultChannelId : Option (List Nat)
  guilds : List Guild
  files : List (List Nat)
  usersById : List (List Nat × User)
  memberSearch : List Nat → List Nat → List Member
  membersList : List Nat → Nat → List Member
  messagesFetch : List Nat → Nat → List Message
  sendOutcome : List Nat → SendPayload → Option (List Nat)
  dmOutcome : List Nat → SendPayload → Option (List Nat)

/-! ## Resolution helpers -/

/-- `discord.guilds.cache.get(id)`. -/
def findGuild (guilds : List Guild) (gid : List Nat) : Option Guild :=
  guilds.find? (fun g => g.id == gid)

/-- `DEFAULT_GUILD_ALIAS`: `GUILDS.personal ? "personal" :
Object.keys(GUILDS)[0] || "default"` (src/index.js:39-41). -/
def defaultGuildAlias (reg : List (List Nat × List Nat)) : List Nat :=
  let fallback :=
    match reg.head? with
    | some kv => if kv.1.isEmpty then str "default" else kv.1
    | none => str "default"
  match List.lookup (str "personal") reg with
  | some v => if v.isEmpty then fallback else str "personal"
  | none => fallback

/-- The no-argument path of `resolveGuild` (src/index.js:92-99): look the
default alias up in `GUILDS`, then the mapped ID up in the live cache.  When
the alias is not a key, `GUILDS[alias]` is `undefined` and the error message
interpolates the string `"undefined"`. -/
def resolveGuildDefault (reg : List (List Nat × List Nat)) (guilds : List Guild) :
    Except (List Nat) Guild :=
  let dA := defaultGuildAlias reg
  match List.lookup dA reg with
  | some gid =>
    match findGuild guilds gid with
    | some g => Except.ok g
    | none =>
      Except.error (str "Default guild \"" ++ dA ++ (str "\" (" ++ (gid ++ str ") not found")))
  | none =>
    Except.error
      (str "Default guild \"" ++ dA ++ (str "\" (" ++ (str "undefined" ++ str ") not found")))

/-- The fall-through tail of `resolveGuild` (src/index.js:110-124): raw-ID
strategy (only when all digits, and only returning on a hit), then the
case-insensitive guild-name scan, then the final error enumerating the
registry aliases. -/
def resolveGuildTail (reg : List (List Nat × List Nat)) (guilds : List Guild)
    (s aliasLower : List Nat) : Except (List Nat) Guild :=
  match (if jsAllDigits s then findGuild guilds s else none) with
  | some g => Except.ok g
  | none =>
    match guilds.find? (fun g => jsToLower g.name == aliasLower) with
    | some g => Except.ok g
    | none =>
      Except.error (str "Server \"" ++ s ++
        (str "\" not found. Available: " ++ joinComma (reg.map Prod.fst)))

/-- `resolveGuild(serverAlias)` (src/index.js:91-125).  The alias branch
fires only when `GUILDS[serverAlias.toLowerCase()]` is truthy (present and
non-empty); a falsy `serverAlias` (absent or `""`) takes the default path. -/
def resolveGuild (reg : List (List Nat × List Nat)) (guilds : List Guild)
    (arg : Option (List Nat)) : Except (List Nat) Guild :=
  if jsTruthy arg then
    let s := arg.getD []
    let aliasLower := jsToLower s
    match List.lookup aliasLower reg with
    | some gid =>
      if gid.isEmpty then resolveGuildTail reg guilds s aliasLower
      else
        match findGuild guilds gid with
        | some g => Except.ok g
        | none =>
          Except.error (str "Guild alias \"" ++ s ++ (str "\" (" ++ (gid ++ str ") not found")))
    | none => resolveGuildTail reg guilds s aliasLower
  else resolveGuildDefault reg guilds

/-- One cache pass of `resolveChannel` (src/index.js:129-138 and 142-147):
exact ID match, then case-insensitive name match restricted to text-based
channels. -/
def phaseLookup (cache : List Channel) (q clean : List Nat) : Option Channel :=
  match cache.find? (fun c => c.id == q) with
  | some c => some c
  | none => cache.find? (fun c => jsToLower c.name == clean && c.textBased)

/-- `resolveChannel(channelIdOrName, guild)` (src/index.js:128-150): phase 1
on the current cache; on a miss, `guild.channels.fetch()` then the same
lookup on the refreshed cache; else the not-found error. -/
def resolveChannel (q : List Nat) (g : Guild) : Except (List Nat) Channel :=
  let clean := jsToLower (stripHash q)
  match phaseLookup g.channelsCache q clean with
  | some c => Except.ok c
  | none =>
    match phaseLookup g.channelsFetched q clean with
    | some c => Except.ok c
    | none =>
      Except.error (str "Channel \"" ++ q ++ (str "\" not found in " ++ g.name))

/-- `waitForDiscord` (src/index.js:76-88) as seen by a single call: succeeds
when the ready flag is set, otherwise the poll loop times out with the
readiness error. -/
def waitForDiscord (w : World) : Except (List Nat) Unit :=
  if w.ready then Except.ok () else Except.error (str "Discord client not ready (timeout)")

/-- The cross-guild scan of `resolveChannelWithServer` (src/index.js:161-164):
first guild (in cache order) whose channel cache holds the default channel ID. -/
def findDefaultChannel (guilds : List Guild) (dc : List Nat) : Option (Channel × Guild) :=
  match guilds with
  | [] => none
  | g :: rest =>
    match g.channelsCache.find? (fun c => c.id == dc) with
    | some c => some (c, g)
    | none => findDefaultChannel rest dc

/-- `resolveChannelWithServer(channelArg, serverArg)` (src/index.js:153-167).
Returns the channel together with its owning guild (the source reads
`channel.guild` off the handle). -/
def resolveChannelWithServer (w : World) (chArg srvArg : Option (List Nat)) :
    Except (List Nat) (Channel × Guild) := do
  let _ ← waitForDiscord w
  let g ← resolveGuild w.registry w.guilds srvArg
  if jsTruthy chArg then
    let c ← resolveChannel (chArg.getD []) g
    Except.ok (c, g)
  else
    match w.defaultChannelId with
    | some dc =>
      match findDefaultChannel w.guilds dc with
      | some cg => Except.ok cg
      | none => Except.error (str "No channel specified and no default channel set")
    | none => Except.error (str "No channel specified and no default channel set")

/-- The member predicate of `resolveUser`'s guild search (src/index.js:197-202). -/
def memberMatches (q : List Nat) (m : Member) : Bool :=
  jsToLower m.user.username == jsToLower q ||
  jsToLower m.displayName == jsToLower q ||
  (match m.user.globalName with
   | some gn => jsToLower gn == jsToLower q
   | none => false)

/-- The guild-by-guild member search of `resolveUser` (src/index.js:193-204):
iterate the registry entries in order, skip entries whose guild is not cached,
query each guild (`members.fetch({ query, limit: 5 })`) and return the first
exact match. -/
def searchGuilds (w : World) (q : List Nat) :
    List (List Nat × List Nat) → Option User
  | [] => none
  | (_, gid) :: rest =>
    match findGuild w.guilds gid with
    | none => searchGuilds w q rest
    | some _ =>
      match (w.memberSearch gid q).find? (memberMatches q) with
      | some m => some m.user
      | none => searchGuilds w q rest

/-- The strategies of `resolveUser` after the mapping table misses
(src/index.js:184-206). -/
def resolveUserTail (w : World) (q : List Nat) : Except (List Nat) User :=
  if jsAllDigits q then
    match List.lookup q w.usersById with
    | some u => Except.ok u
    | none => Except.error (str "User with ID " ++ q ++ str " not found")
  else
    match searchGuilds w q w.registry with
    | some u => Except.ok u
    | none => Except.error (str "User \"" ++ q ++ str "\" not found")

/-- `resolveUser(nameOrId)` (src/index.js:170-207): readiness wait, the
user-mapping table consulted at the lower-cased query (fired only when the
mapped value is truthy), the raw-ID fetch for all-digit queries, then the
guild search. -/
def resolveUser (w : World) (q : List Nat) : Except (List Nat) User :=
  match waitForDiscord w with
  | Except.error e => Except.error e
  | Except.ok _ =>
    match List.lookup (jsToLower q) w.userMappings with
    | some mid =>
      if mid.isEmpty then resolveUserTail w q
      else
        match List.lookup mid w.usersById with
        | some u => Except.ok u
        | none =>
          Except.error (str "Mapped user \"" ++ q ++ (str "\" (ID: " ++ (mid ++ str ") not found")))
    | none => resolveUserTail w q

/-- `formatCodeBlock(code, language)` (src/index.js:209-211). -/
def formatCodeBlock (code language : List Nat) : List Nat :=
  str "```" ++ language ++ (str "\n" ++ (code ++ str "\n```"))

/-! ## The send-message chunking and the send-code formatting -/

/-- `msg.match(/[\s\S]{1,2000}/g)` (src/index.js:422): greedy split into
successive chunks of at most 2000 code units. -/
def chunk2000 (l : List Nat) : List (List Nat) :=
  if l.isEmpty then [] else l.take 2000 :: chunk2000 (l.drop 2000)
termination_by l.length
decreasing_by
  cases l with
  | nil => simp at *
  | cons a as => simp [List.length_drop]; omega

/-- The sequence of `channel.send` string arguments issued by the
send-message handler (src/index.js:419-426): one send for a message within
the 2000-unit limit, else the chunk sequence. -/
def sendMessageSends (msg : List Nat) : List (List Nat) :=
  if msg.length ≤ 2000 then [msg] else chunk2000 msg

/-- The fully formatted message of the send-code handler
(src/index.js:442-445): the fenced code block, preceded by the bolded title
when the title argument is truthy. -/
def sendCodeFullMessage (code : List Nat) (language title : Option (List Nat)) : List Nat :=
  let codeBlock := formatCodeBlock code (language.getD [])
  if jsTruthy title then str "**" ++ title.getD [] ++ str "**\n" ++ codeBlock
  else codeBlock

/-- The attachment extension of the send-code handler (src/index.js:448):
`.<language>` when the language argument is truthy, else `.txt`. -/
def sendCodeExt (language : Option (List Nat)) : List Nat :=
  if jsTruthy language then str "." ++ language.getD [] else str ".txt"

/-- The sequence of `channel.send` payloads issued by the send-code handler
(src/index.js:447-459): a single file attachment named `code<ext>` carrying
the raw code when the formatted message exceeds 2000 units, else the plain
formatted message. -/
def sendCodeSends (code : List Nat) (language title : Option (List Nat)) : List SendPayload :=
  let fullMessage := sendCodeFullMessage code language title
  if 2000 < fullMessage.length then
    [{ content := if jsTruthy title then some (str "**" ++ title.getD [] ++ str "**") else none,
       files := [AttachSpec.fromBytes (str "code" ++ sendCodeExt language) code],
       embeds := [] }]
  else
    [{ content := some fullMessage, files := [], embeds := [] }]

/-! ## Fetch limits and the user-mapping table -/

/-- `Math.min(args.limit || 50, 100)` of the list-members handler
(src/index.js:567). -/
def listMembersLimit (lim : Option Nat) : Nat := min (jsNumOr lim 50) 100

/-- `Math.min(args.limit || 10, 50)` of the read-messages handler
(src/index.js:623). -/
def readMessagesLimit (lim : Option Nat) : Nat := min (jsNumOr lim 10) 50

/-- `USER_MAPPINGS = JSON.parse(process.env.DISCORD_USER_MAPPINGS || "{}")`
(src/index.js:44-49): the startup table is the parsed configuration,
keys taken verbatim. -/
def mappingsInit (cfg : List (List Nat × List Nat)) : List (List Nat × List Nat) := cfg

/-- `USER_MAPPINGS[args.alias.toLowerCase()] = args.user_id`
(src/index.js:607): runtime add, key lower-cased.  The new binding shadows
any older one under `List.lookup`, matching JS property assignment. -/
def addUserMappingTable (t : List (List Nat × List Nat)) (aliasName uid : List Nat) :
    List (List Nat × List Nat) :=
  (jsToLower aliasName, uid) :: t

/-- The user-mapping tables reachable from a startup configuration: the
parsed configuration itself, closed under the add-user-mapping operation. -/
inductive ReachableMappings (cfg : List (List Nat × List Nat)) :
    List (List Nat × List Nat) → Prop where
  | init : ReachableMappings cfg (mappingsInit cfg)
  | add (t aliasName uid) : ReachableMappings cfg t →
      ReachableMappings cfg (addUserMappingTable t aliasName uid)

/-- Every key of the table is stored lower-cased. -/
def keysLowered (t : List (List Nat × List Nat)) : Prop :=
  ∀ kv ∈ t, jsToLower kv.1 = kv.1

instance (t : List (List Nat × List Nat)) : Decidable (keysLowered t) :=
  inferInstanceAs (Decidable (∀ kv ∈ t, jsToLower kv.1 = kv.1))

/-! ## The read-messages formatting -/

/-- One emitted message record (src/index.js:625-630). -/
structure MsgRecord where
  author : List Nat
  content : List Nat
  timestamp : List Nat
  attachments : List (List Nat)
deriving DecidableEq

/-- The record built for one fetched message. -/
def msgRecord (m : Message) : MsgRecord :=
  { author := m.author.username
    content := m.content
    timestamp := m.createdAtIso
    attachments := m.attachments.map Attachment.url }

/-- `messages.reverse().map(...)` (src/index.js:625-630): the fetch returns
newest-first; the emission reverses in place, then formats each record. -/
def readMessagesFormatted (fetched : List Message) : List MsgRecord :=
  fetched.reverse.map msgRecord

/-! ## The remaining list-tool records -/

/-- One channel record of the list-channels handler (src/index.js:549-554).
`c.parent?.name || "none"`. -/
structure ChanRecord where
  id : List Nat
  name : List Nat
  type : Nat
  category : List Nat
deriving DecidableEq

def chanRecord (c : Channel) : ChanRecord :=
  { id := c.id, name := c.name, type := c.type
    category := match jsOrUndef c.parentName with
                | some p => p
                | none => str "none" }

/-- One member record of the list-members handler (src/index.js:569-575). -/
structure MemberRecord where
  id : List Nat
  username : List Nat
  displayName : List Nat
  globalName : Option (List Nat)
  bot : Bool
deriving DecidableEq

def memberRecord (m : Member) : MemberRecord :=
  { id := m.user.id, username := m.user.username, displayName := m.displayName
    globalName := m.user.globalName, bot := m.user.bot }

/-- One server record of the list-servers handler (src/index.js:587-595).
`guild?.name || "not connected"`. -/
structure ServerRecord where
  aliasName : List Nat
  id : List Nat
  name : List Nat
  isDefault : Bool
deriving DecidableEq

def serverRecord (guilds : List Guild) (dA : List Nat) (kv : List Nat × List Nat) :
    ServerRecord :=
  { aliasName := kv.1, id := kv.2
    name := match findGuild guilds kv.2 with
            | some g => if g.name.isEmpty then str "not connected" else g.name
            | none => str "not connected"
    isDefault := kv.1 == dA }

/-! ## The tool dispatcher (src/index.js:406-650) -/

/-- A tool invocation as delivered by the transport: the arguments of each
known tool after schema shaping (required arguments present, optional ones
`Option`), plus the default case carrying an unrecognized tool name. -/
inductive ToolCall where
  | sendMessage (message : List Nat) (channel server : Option (List Nat))
  | sendCode (code : List Nat) (language title channel server : Option (List Nat))
  | sendFile (filePath : List Nat) (message channel server : Option (List Nat))
  | sendImage (imagePath : List Nat) (message channel server : Option (List Nat))
  | sendDm (user message : List Nat) (code language filePath : Option (List Nat))
  | listChannels (server : Option (List Nat))
  | listMembers (server : Option (List Nat)) (limit : Option Nat)
  | listServers
  | addUserMapping (aliasName userId : List Nat)
  | readMessages (channel : List Nat) (server : Option (List Nat)) (limit : Option Nat)
  | unknown (name : List Nat)
deriving DecidableEq

/-- The structured part of a success payload.  The source serializes these
record lists with `JSON.stringify` into the reply text; the serialization
itself is not modelled, the records and their order are. -/
inductive Output where
  | plain
  | channels (recs : List ChanRecord)
  | members (recs : List MemberRecord)
  | servers (recs : List ServerRecord)
  | messages (recs : List MsgRecord)
deriving DecidableEq

/-- The outcome of a successful handler run: the reply text (its template
part), the sends performed (channel ID with payload), the structured output,
and the user-mapping binding added, if any. -/
structure ToolOk where
  text : List Nat
  sends : List (List Nat × SendPayload)
  out : Output
  mapAdd : Option (List Nat × List Nat)
deriving DecidableEq

/-- Run a sequence of sends against one channel, stopping at the first
remote failure (each `await channel.send` throws into the handler). -/
def runSends (w : World) (cid : List Nat) : List SendPayload → Except (List Nat) Unit
  | [] => Except.ok ()
  | p :: rest =>
    match w.sendOutcome cid p with
    | some err => Except.error err
    | none => runSends w cid rest

/-- The reply-text templates of the send tools. -/
def sentText (what : List Nat) (c : Channel) (g : Guild) : List Nat :=
  what ++ str " sent to #" ++ c.name ++ (str " in " ++ g.name)

/-- The body of the `CallToolRequestSchema` handler's `switch` statement
(src/index.js:412-643), entered after the dispatcher-level readiness wait. -/
def runToolBody (w : World) : ToolCall → Except (List Nat) ToolOk
  | ToolCall.sendMessage msg ch srv => do
    let cg ← resolveChannelWithServer w ch srv
    let payloads := (sendMessageSends msg).map
      (fun s => { content := some s, files := [], embeds := [] : SendPayload })
    let _ ← runSends w cg.1.id payloads
    Except.ok { text := sentText (str "Message") cg.1 cg.2
                sends := payloads.map (fun p => (cg.1.id, p))
                out := Output.plain, mapAdd := none }
  | ToolCall.sendCode code language title ch srv => do
    let cg ← resolveChannelWithServer w ch srv
    let payloads := sendCodeSends code language title
    let _ ← runSends w cg.1.id payloads
    Except.ok { text := sentText (str "Code snippet") cg.1 cg.2
                sends := payloads.map (fun p => (cg.1.id, p))
                out := Output.plain, mapAdd := none }
  | ToolCall.sendFile filePath msg ch srv => do
    let cg ← resolveChannelWithServer w ch srv
    if filePath ∈ w.files then
      let payload : SendPayload :=
        { content := jsOrUndef msg, files := [AttachSpec.fromPath filePath], embeds := [] }
      let _ ← runSends w cg.1.id [payload]
      Except.ok { text := str "File \"" ++ basename filePath ++ str "\"" ++
                          (str " sent to #" ++ cg.1.name ++ (str " in " ++ cg.2.name))
                  sends := [(cg.1.id, payload)], out := Output.plain, mapAdd := none }
    else Except.error (str "File not found: " ++ filePath)
  | ToolCall.sendImage imagePath msg ch srv => do
    let cg ← resolveChannelWithServer w ch srv
    if imagePath ∈ w.files then
      let payload : SendPayload :=
        { content := none, files := [AttachSpec.fromPath imagePath]
          embeds := [{ image := str "attachment://" ++ basename imagePath
                       title := jsOrUndef msg }] }
      let _ ← runSends w cg.1.id [payload]
      Except.ok { text := str "Image \"" ++ basename imagePath ++ str "\"" ++
                          (str " sent to #" ++ cg.1.name ++ (str " in " ++ cg.2.name))
                  sends := [(cg.1.id, payload)], out := Output.plain, mapAdd := none }
    else Except.error (str "Image not found: " ++ imagePath)
  | ToolCall.sendDm user msg code language filePath => do
    let u ← resolveUser w user
    let parts := (if msg.isEmpty then [] else [msg]) ++
      (if jsTruthy code then [formatCodeBlock (code.getD []) (language.getD [])] else [])
    let content := joinNewline parts
    if jsTruthy filePath ∧ filePath.getD [] ∉ w.files then
      Except.error (str "File not found: " ++ filePath.getD [])
    else
      let payload : SendPayload :=
        { content := if content.isEmpty then none else some content
          files := if jsTruthy filePath then [AttachSpec.fromPath (filePath.getD [])] else []
          embeds := [] }
      match w.dmOutcome u.id payload with
      | some err => Except.error err
      | none =>
        Except.ok { text := str "DM sent to " ++ u.username ++ (str " (" ++ (u.id ++ str ")"))
                    sends := [(u.id, payload)], out := Output.plain, mapAdd := none }
  | ToolCall.listChannels srv => do
    let g ← resolveGuild w.registry w.guilds srv
    let recs := (g.channelsFetched.filter (fun c => c.textBased && !c.thread)).map chanRecord
    Except.ok { text := str "Channels in " ++ g.name ++ str ":\n"
                sends := [], out := Output.channels recs, mapAdd := none }
  | ToolCall.listMembers srv limit => do
    let g ← resolveGuild w.registry w.guilds srv
    let recs := (w.membersList g.id (listMembersLimit limit)).map memberRecord
    Except.ok { text := str "Members in " ++ g.name ++ str ":\n"
                sends := [], out := Output.members recs, mapAdd := none }
  | ToolCall.listServers =>
    Except.ok { text := []
                sends := []
                out := Output.servers
                  (w.registry.map (serverRecord w.guilds (defaultGuildAlias w.registry)))
                mapAdd := none }
  | ToolCall.addUserMapping aliasName userId =>
    Except.ok { text := str "Mapped \"" ++ aliasName ++ (str "\" -> " ++
                        (userId ++ str " (session only)"))
                sends := [], out := Output.plain
                mapAdd := some (jsToLower aliasName, userId) }
  | ToolCall.readMessages ch srv limit => do
    let cg ← resolveChannelWithServer w (some ch) srv
    let fetched := w.messagesFetch cg.1.id (readMessagesLimit limit)
    Except.ok { text := []
                sends := [], out := Output.messages (readMessagesFormatted fetched)
                mapAdd := none }
  | ToolCall.unknown name =>
    Except.error (str "Unknown tool: " ++ name)

/-- The `try` block of the dispatch handler: the readiness wait
(src/index.js:410), then the `switch`. -/
def runTool (w : World) (c : ToolCall) : Except (List Nat) ToolOk := do
  let _ ← waitForDiscord w
  runToolBody w c

/-- A reply payload as returned to the transport. -/
structure Reply where
  text : List Nat
  out : Output
  isError : Bool
deriving DecidableEq

/-- The whole `CallToolRequestSchema` handler (src/index.js:406-650): the
`try` block, with every thrown error converted at the dispatch boundary into
an error-tagged payload whose text is `` `Error: ${error.message}` ``. -/
def handleCallTool (w : World) (c : ToolCall) : Reply :=
  match runTool w c with
  | Except.ok r => { text := r.text, out := r.out, isError := false }
  | Except.error e => { text := str "Error: " ++ e, out := Output.plain, isError := true }

deriving instance DecidableEq for Except

/-! ## Helper lemmas: case conversion, digits, chunking -/

theorem lowerUnit_upperUnit (u : Nat) : lowerUnit (upperUnit u) = lowerUnit u := by
  simp only [lowerUnit, upperUnit]
  split_ifs <;> omega

theorem isDigit_upperUnit (u : Nat) : isDigitUnit (upperUnit u) = isDigitUnit u := by
  simp only [isDigitUnit, upperUnit]
  split_ifs with h
  · simp only [decide_eq_decide]; omega
  · rfl

theorem upperUnit_of_digit (u : Nat) (h : isDigitUnit u = true) : upperUnit u = u := by
  simp only [isDigitUnit, decide_eq_true_eq] at h
  simp only [upperUnit]
  split_ifs with hu
  · omega
  · rfl

theorem jsToLower_jsToUpper (l : List Nat) : jsToLower (jsToUpper l) = jsToLower l := by
  induction l with
  | nil => rfl
  | cons a as ih =>
    simp only [jsToLower, jsToUpper, List.map_cons] at *
    rw [lowerUnit_upperUnit, ih]

theorem all_digits_jsToUpper (l : List Nat) :
    (jsToUpper l).all isDigitUnit = l.all isDigitUnit := by
  induction l with
  | nil => rfl
  | cons a as ih =>
    simp only [jsToUpper, List.map_cons, List.all_cons] at *
    rw [isDigit_upperUnit, ih]

theorem jsAllDigits_jsToUpper (l : List Nat) : jsAllDigits (jsToUpper l) = jsAllDigits l := by
  cases l with
  | nil => rfl
  | cons a as =>
    simp only [jsAllDigits, jsToUpper, List.map_cons, List.isEmpty_cons, List.all_cons,
      Bool.not_false, Bool.true_and]
    rw [isDigit_upperUnit]
    have := all_digits_jsToUpper as
    simp only [jsToUpper] at this
    rw [this]

theorem jsToUpper_of_allDigits (l : List Nat) (h : jsAllDigits l = true) : jsToUpper l = l := by
  simp only [jsAllDigits, Bool.and_eq_true, List.all_eq_true] at h
  simp only [jsToUpper]
  induction l with
  | nil => rfl
  | cons a as ih =>
    simp only [List.map_cons]
    rw [upperUnit_of_digit a (h.2 a (by simp))]
    by_cases has : as = []
    · simp [has]
    · rw [List.cons_inj_right]
      exact ih ⟨by simpa [List.isEmpty_eq_false_iff_exists_mem] using (by cases as <;> simp_all), fun u hu => h.2 u (by simp [hu])⟩

theorem chunk2000_ne_nil (l : List Nat) (h : l ≠ []) : chunk2000 l ≠ [] := by
  rw [chunk2000]
  simp [h]

theorem chunk2000_flatten (l : List Nat) : (chunk2000 l).flatten = l := by
  induction l using chunk2000.induct with
  | case1 l h => rw [chunk2000]; simp_all
  | case2 l h ih => rw [chunk2000]; simp_all [List.flatten_cons]

theorem chunk2000_le (l : List Nat) : ∀ c ∈ chunk2000 l, c.length ≤ 2000 := by
  induction l using chunk2000.induct with
  | case1 l h => rw [chunk2000]; simp_all
  | case2 l h ih =>
    rw [chunk2000]
    simp only [h, Bool.false_eq_true, if_false, List.mem_cons]
    rintro c (rfl | hc)
    · simp [List.length_take]
    · exact ih c hc

theorem chunk2000_two (l : List Nat) (h : 2000 < l.length) : 2 ≤ (chunk2000 l).length := by
  rw [chunk2000]
  have hne : l.isEmpty = false := by cases l <;> simp_all
  have hd : l.drop 2000 ≠ [] := by
    simp only [ne_eq, List.drop_eq_nil_iff]
    omega
  simp only [hne, Bool.false_eq_true, if_false, List.length_cons]
  have := List.length_pos.mpr (chunk2000_ne_nil _ hd)
  omega

/-- The queried identifier sits inside a message of the shape
`pre ++ (q ++ post)`. -/
theorem mid_isInf (a b q : List Nat) : q <:+: (a ++ q) ++ b := ⟨a, b, rfl⟩

/-! ## Claims -/

/-- C2: for every message sent via the send-message tool, a message of at
most 2000 units yields exactly one send call carrying the whole string; a
longer one yields at least two send calls, each chunk at most 2000 units,
whose in-order concatenation is exactly the original string.  Moreover a
successful dispatcher run of the tool performs exactly these sends, in
order, against the resolved channel. -/
theorem claim_C2_message_chunking (msg : List Nat) :
    (msg.length ≤ 2000 → sendMessageSends msg = [msg]) ∧
    (2000 < msg.length →
      2 ≤ (sendMessageSends msg).length ∧
      (∀ c ∈ sendMessageSends msg, c.length ≤ 2000) ∧
      (sendMessageSends msg).flatten = msg) ∧
    (∀ w ch srv r, runToolBody w (ToolCall.sendMessage msg ch srv) = Except.ok r →
      ∃ cid, r.sends = (sendMessageSends msg).map
        (fun s => (cid, { content := some s, files := [], embeds := [] : SendPayload }))) := by
  refine ⟨fun h => by simp [sendMessageSends, h], fun h => ?_, fun w ch srv r hr => ?_⟩
  · have hns : sendMessageSends msg = chunk2000 msg := by
      simp [sendMessageSends]; omega
    rw [hns]
    exact ⟨chunk2000_two msg h, chunk2000_le msg, chunk2000_flatten msg⟩
  · simp only [runToolBody, bind, Except.bind] at hr
    rcases hcg : resolveChannelWithServer w ch srv with e | cg
    · rw [hcg] at hr; cases hr
    · simp only [hcg] at hr
      rcases hs : runSends w cg.1.id ((sendMessageSends msg).map
          (fun s => { content := some s, files := [], embeds := [] : SendPayload })) with e | u
      · simp only [hs] at hr; cases hr
      · simp only [hs] at hr
        cases hr
        exact ⟨cg.1.id, by simp⟩

/-- C2 witness: a short message is sent whole in one call; a 2001-unit
message is chunked into at least two pieces, each within the limit,
concatenating back to the original. -/
theorem claim_C2_message_chunking_witness :
    (sendMessageSends (str "hi") = [str "hi"]) ∧
    (2 ≤ (sendMessageSends (List.replicate 2001 7)).length ∧
     (∀ c ∈ sendMessageSends (List.replicate 2001 7), c.length ≤ 2000) ∧
     (sendMessageSends (List.replicate 2001 7)).flatten = List.replicate 2001 7) :=
  ⟨(claim_C2_message_chunking (str "hi")).1 (by decide),
   (claim_C2_message_chunking (List.replicate 2001 7)).2.1 (by rw [List.length_replicate]; omega)⟩

/-- C3: whenever the fully formatted code message (fences, language tag,
optional bolded title) exceeds 2000 units, the send-code tool issues exactly
one send, carrying a single file attachment named `code.<language>`
(`code.txt` when no language is given) whose bytes are the raw code; the
code is never split across sends.  A successful dispatcher run of the tool
performs exactly that one send. -/
theorem claim_C3_code_attachment (w : World) (code : List Nat)
    (language title ch srv : Option (List Nat)) (r : ToolOk)
    (h : 2000 < (sendCodeFullMessage code language title).length)
    (hr : runToolBody w (ToolCall.sendCode code language title ch srv) = Except.ok r) :
    sendCodeSends code language title =
      [{ content := if jsTruthy title then some (str "**" ++ title.getD [] ++ str "**") else none
         files := [AttachSpec.fromBytes (str "code" ++ sendCodeExt language) code]
         embeds := [] }] ∧
    ∃ cid, r.sends =
      [(cid, { content := if jsTruthy title then some (str "**" ++ title.getD [] ++ str "**")
                          else none
               files := [AttachSpec.fromBytes (str "code" ++ sendCodeExt language) code]
               embeds := [] })] := by
  have hone : sendCodeSends code language title =
      [{ content := if jsTruthy title then some (str "**" ++ title.getD [] ++ str "**") else none
         files := [AttachSpec.fromBytes (str "code" ++ sendCodeExt language) code]
         embeds := [] }] := by
    simp [sendCodeSends, h]
  refine ⟨hone, ?_⟩
  simp only [runToolBody, bind, Except.bind] at hr
  rcases hcg : resolveChannelWithServer w ch srv with e | cg
  · rw [hcg] at hr; cases hr
  · simp only [hcg] at hr
    rcases hs : runSends w cg.1.id (sendCodeSends code language title) with e | u
    · simp only [hs] at hr; cases hr
    · simp only [hs] at hr
      cases hr
      exact ⟨cg.1.id, by rw [hone]; simp⟩

/-- A ready one-guild, one-channel world with all remote calls succeeding,
used to exercise the dispatcher at concrete inputs. -/
def witChannel : Channel :=
  { id := str "c1", name := str "general", type := 0, textBased := true
    thread := false, parentName := none }

def witGuild : Guild :=
  { id := str "g1", name := str "Home", channelsCache := [witChannel]
    channelsFetched := [witChannel] }

def witWorld : World :=
  { ready := true, registry := [(str "personal", str "g1")], userMappings := []
    defaultChannelId := none, guilds := [witGuild], files := []
    usersById := [], memberSearch := fun _ _ => [], membersList := fun _ _ => []
    messagesFetch := fun _ _ => [], sendOutcome := fun _ _ => none
    dmOutcome := fun _ _ => none }

/-- A 2001-unit code body used by the oversized-send witnesses (kept behind
a definition so tactics reason about its length instead of unfolding it). -/
def bigCode : List Nat := List.replicate 2001 97

theorem bigCode_length : bigCode.length = 2001 := by
  show (List.replicate 2001 97).length = 2001
  rw [List.length_replicate]

/-- The success outcome of the send-code dispatcher run in the C3 witness. -/
def witCodePayload : SendPayload :=
  { content := none
    files := [AttachSpec.fromBytes (str "code" ++ sendCodeExt none) bigCode]
    embeds := [] }

def witCodeOk : ToolOk :=
  { text := sentText (str "Code snippet") witChannel witGuild
    sends := [(witChannel.id, witCodePayload)], out := Output.plain, mapAdd := none }

/-- C3 witness: a 2001-unit code body with no language and no title renders
to 2009 units; the dispatcher run against a ready one-channel world succeeds
and issues the single `code.txt` attachment send. -/
theorem claim_C3_code_attachment_witness :
    sendCodeSends bigCode none none = [witCodePayload] ∧
    ∃ cid, witCodeOk.sends = [(cid, witCodePayload)] := by
  have h2 : 2000 < (sendCodeFullMessage bigCode none none).length := by
    have hfm : sendCodeFullMessage bigCode none none
        = str "```" ++ [] ++ (str "\n" ++ (bigCode ++ str "\n```")) := rfl
    rw [hfm]
    simp only [List.length_append, bigCode_length, List.append_nil]
    have e1 : (str "```").length = 3 := rfl
    have e2 : (str "\n").length = 1 := rfl
    have e3 : (str "\n```").length = 4 := rfl
    omega
  have hsends : sendCodeSends bigCode none none = [witCodePayload] := by
    simp only [sendCodeSends, h2, if_true, witCodePayload, jsTruthy, if_neg]
    simp [jsTruthy]
  have hr : runToolBody witWorld
      (ToolCall.sendCode bigCode none none (some (str "general")) none) =
      Except.ok witCodeOk := by
    simp only [runToolBody, bind, Except.bind]
    rw [show resolveChannelWithServer witWorld (some (str "general")) none =
        Except.ok (witChannel, witGuild) from rfl]
    rw [hsends]
    rfl
  have h := claim_C3_code_attachment witWorld bigCode none none
    (some (str "general")) none witCodeOk h2 hr
  exact ⟨hsends, h.2⟩

/-- C10: for the list-members and read-messages tools a supplied limit of 0
is treated the same as an absent limit — the entire dispatcher run is
identical — because the default (50, resp. 10) is substituted for any falsy
limit before the cap (100, resp. 50) is applied. -/
theorem claim_C10_zero_limit :
    (∀ w srv, runToolBody w (ToolCall.listMembers srv (some 0)) =
      runToolBody w (ToolCall.listMembers srv none)) ∧
    (∀ w ch srv, runToolBody w (ToolCall.readMessages ch srv (some 0)) =
      runToolBody w (ToolCall.readMessages ch srv none)) ∧
    listMembersLimit (some 0) = 50 ∧ listMembersLimit none = 50 ∧
    readMessagesLimit (some 0) = 10 ∧ readMessagesLimit none = 10 :=
  ⟨fun _ _ => rfl, fun _ _ _ => rfl, rfl, rfl, rfl, rfl⟩

/-- C7: a channel identifier that misses both cache-phase lookups on the
initial snapshot but hits (by ID, or case-insensitively by name with an
optional leading `#` stripped, among text-capable channels) after the forced
refresh makes the single `resolveChannel` invocation succeed with that
channel: the call runs the cache-only lookup, the refresh, then the same
lookup again internally. -/
theorem claim_C7_channel_two_phase (q : List Nat) (g : Guild) (c : Channel)
    (h1 : phaseLookup g.channelsCache q (jsToLower (stripHash q)) = none)
    (h2 : phaseLookup g.channelsFetched q (jsToLower (stripHash q)) = some c) :
    resolveChannel q g = Except.ok c := by
  simp only [resolveChannel, h1, h2]

/-- A guild whose initial channel snapshot is empty but whose refreshed
cache holds the witness channel. -/
def witRefreshGuild : Guild :=
  { id := str "g1", name := str "Home", channelsCache := [], channelsFetched := [witChannel] }

/-- C7 witness: `#General` is absent from the initial empty snapshot and
present (as text channel `general`) after the refresh, and the single call
returns it. -/
theorem claim_C7_channel_two_phase_witness :
    resolveChannel (str "#General") witRefreshGuild = Except.ok witChannel :=
  claim_C7_channel_two_phase (str "#General") witRefreshGuild witChannel
    (by decide) (by decide)

/-- C8: every read-messages emission lists records oldest-first — element
`i` of the output is the record of element `length - 1 - i` of the
newest-first fetched sequence — and each record carries the author's
username, the content, the ISO timestamp, and the attachment URLs of its
message. -/
theorem claim_C8_read_messages_order (fetched : List Message) (i : Nat)
    (h : i < fetched.length) :
    (readMessagesFormatted fetched).length = fetched.length ∧
    (readMessagesFormatted fetched)[i]? =
      (fetched[fetched.length - 1 - i]?).map (fun m =>
        MsgRecord.mk m.author.username m.content m.createdAtIso
          (m.attachments.map Attachment.url)) := by
  constructor
  · simp [readMessagesFormatted]
  · simp only [readMessagesFormatted, List.getElem?_map, List.getElem?_reverse h]
    rcases fetched[fetched.length - 1 - i]? with _ | m
    · rfl
    · simp [msgRecord]

/-- Two fetched messages, newest first. -/
def witUser : User :=
  { id := str "7", username := str "ann", globalName := none, bot := false }

def witMsgNew : Message :=
  { author := witUser, content := str "second", createdAtIso := str "2024-01-02T00:00:00.000Z"
    attachments := [] }

def witMsgOld : Message :=
  { author := witUser, content := str "first", createdAtIso := str "2024-01-01T00:00:00.000Z"
    attachments := [{ url := str "http://a/b.png" }] }

/-- C8 witness: a two-message fetch is emitted reversed with the record
fields copied. -/
theorem claim_C8_read_messages_order_witness :
    (readMessagesFormatted [witMsgNew, witMsgOld]).length = 2 ∧
    (readMessagesFormatted [witMsgNew, witMsgOld])[0]? =
      ([witMsgNew, witMsgOld][1]?).map (fun m =>
        MsgRecord.mk m.author.username m.content m.createdAtIso
          (m.attachments.map Attachment.url)) :=
  claim_C8_read_messages_order [witMsgNew, witMsgOld] 0 (by decide)

theorem jsTruthy_some_ne (s : List Nat) (h : s ≠ []) : jsTruthy (some s) = true := by
  cases s with
  | nil => exact absurd rfl h
  | cons a as => rfl

theorem jsToUpper_ne_nil (A : List Nat) (h : A ≠ []) : jsToUpper A ≠ [] := by
  cases A with
  | nil => exact absurd rfl h
  | cons a as => simp [jsToUpper]

/-- Two fall-through tails with the same lowered identifier and no digit hit
resolve to the same guild (or both fail). -/
theorem resolveGuildTail_toOption (reg : List (List Nat × List Nat)) (guilds : List Guild)
    (s t al : List Nat) (hs : jsAllDigits s = false) (ht : jsAllDigits t = false) :
    (resolveGuildTail reg guilds s al).toOption =
      (resolveGuildTail reg guilds t al).toOption := by
  simp only [resolveGuildTail, hs, ht, Bool.false_eq_true, if_false]
  cases guilds.find? (fun g => jsToLower g.name == al) <;> rfl

/-- C6: for every alias registered as a key of the ServerRegistry, resolving
it and resolving its upper-casing return the same server handle (and fail
together when the handle is unavailable). -/
theorem claim_C6_alias_case_insensitive (reg : List (List Nat × List Nat))
    (guilds : List Guild) (A : List Nat) (hA : A ∈ reg.map Prod.fst) :
    (resolveGuild reg guilds (some A)).toOption =
      (resolveGuild reg guilds (some (jsToUpper A))).toOption := by
  by_cases hd : jsAllDigits A = true
  · rw [jsToUpper_of_allDigits A hd]
  · have hdf : jsAllDigits A = false := by simpa using hd
    have hd2 : jsAllDigits (jsToUpper A) = false := by
      rw [jsAllDigits_jsToUpper]; exact hdf
    by_cases hA0 : A = []
    · subst hA0; rfl
    · have h1 : jsTruthy (some A) = true := jsTruthy_some_ne A hA0
      have h2 : jsTruthy (some (jsToUpper A)) = true :=
        jsTruthy_some_ne _ (jsToUpper_ne_nil A hA0)
      simp only [resolveGuild, h1, h2, if_true, Option.getD_some, jsToLower_jsToUpper]
      cases hl : List.lookup (jsToLower A) reg with
      | none => exact resolveGuildTail_toOption reg guilds A (jsToUpper A) _ hdf hd2
      | some gid =>
        by_cases hg : gid.isEmpty
        · simp only [hg, if_true]
          exact resolveGuildTail_toOption reg guilds A (jsToUpper A) _ hdf hd2
        · simp only [hg, Bool.false_eq_true, if_false]
          cases findGuild guilds gid <;> rfl

/-- C6 witness: the registered alias `per` and its upper-casing `PER`
resolve to the same guild of the witness world. -/
theorem claim_C6_alias_case_insensitive_witness :
    (resolveGuild [(str "per", str "g1")] [witGuild] (some (str "per"))).toOption =
      (resolveGuild [(str "per", str "g1")] [witGuild] (some (jsToUpper (str "per")))).toOption :=
  claim_C6_alias_case_insensitive [(str "per", str "g1")] [witGuild] (str "per") (by decide)

/-- C4 as stated is refuted by a registry key containing an upper-case
letter: the identifier `Foo` matches the registry key `Foo`
(case-insensitively — here even verbatim), the mapped ID `g1` is present in
the live cache, yet the resolver does not return that server's handle (the
alias strategy looks the lower-cased identifier up among the verbatim keys,
misses, and the name-match fallback fails). -/
theorem claim_C4_counterexample :
    (str "Foo") ∈ ([(str "Foo", str "g1")] : List (List Nat × List Nat)).map Prod.fst ∧
    jsToLower (str "Foo") = jsToLower (str "Foo") ∧
    findGuild [witGuild] (str "g1") = some witGuild ∧
    (resolveGuild [(str "Foo", str "g1")] [witGuild] (some (str "Foo"))).toOption = none := by
  refine ⟨by decide, rfl, by decide, by decide⟩

/-- C4 (amended): for every non-empty identifier whose lower-casing is
literally a key of the ServerRegistry with a non-empty mapped server ID —
the case reachable by the alias strategy, registry keys being expected
lower-case — if the mapped ID is present in the live server cache the
resolver returns that server's handle, and if it is absent the resolver
fails immediately with a message containing both the alias as queried and
the mapped ID, without attempting the raw-ID or name-match strategies. -/
theorem claim_C4_alias_config_error (reg : List (List Nat × List Nat)) (guilds : List Guild)
    (a gid : List Nat) (ha : a ≠ []) (hl : List.lookup (jsToLower a) reg = some gid)
    (hg : gid ≠ []) :
    (∀ g, findGuild guilds gid = some g →
      resolveGuild reg guilds (some a) = Except.ok g) ∧
    (findGuild guilds gid = none →
      resolveGuild reg guilds (some a) =
        Except.error (str "Guild alias \"" ++ a ++ (str "\" (" ++ (gid ++ str ") not found"))) ∧
      a <:+: (str "Guild alias \"" ++ a ++ (str "\" (" ++ (gid ++ str ") not found"))) ∧
      gid <:+: (str "Guild alias \"" ++ a ++ (str "\" (" ++ (gid ++ str ") not found")))) := by
  have h1 : jsTruthy (some a) = true := jsTruthy_some_ne a ha
  have hge : gid.isEmpty = false := by cases gid with
    | nil => exact absurd rfl hg
    | cons x xs => rfl
  constructor
  · intro g hgg
    simp only [resolveGuild, h1, if_true, Option.getD_some, hl, hge, Bool.false_eq_true,
      if_false, hgg]
  · intro hnone
    refine ⟨?_, ?_, ?_⟩
    · simp only [resolveGuild, h1, if_true, Option.getD_some, hl, hge, Bool.false_eq_true,
        if_false, hnone]
    · exact mid_isInf (str "Guild alias \"") (str "\" (" ++ (gid ++ str ") not found")) a
    · exact ⟨str "Guild alias \"" ++ a ++ str "\" (", str ") not found", by simp⟩

/-- C4 witness: alias `per` mapped to the absent ID `gX` fails immediately
with both alias and ID in the message; mapped to the present ID `g1` it
returns the cached guild. -/
theorem claim_C4_alias_config_error_witness :
    resolveGuild [(str "per", str "g1")] [witGuild] (some (str "per")) = Except.ok witGuild ∧
    resolveGuild [(str "per", str "gX")] [witGuild] (some (str "per")) =
      Except.error (str "Guild alias \"" ++ str "per" ++
        (str "\" (" ++ (str "gX" ++ str ") not found"))) :=
  ⟨(claim_C4_alias_config_error [(str "per", str "g1")] [witGuild] (str "per") (str "g1")
      (by decide) (by decide) (by decide)).1 witGuild (by decide),
   ((claim_C4_alias_config_error [(str "per", str "gX")] [witGuild] (str "per") (str "gX")
      (by decide) (by decide) (by decide)).2 (by decide)).1⟩

theorem isEmpty_false_of_ne (l : List Nat) (h : l ≠ []) : l.isEmpty = false := by
  cases l with
  | nil => exact absurd rfl h
  | cons a as => rfl

theorem defaultGuildAlias_ne_nil (reg : List (List Nat × List Nat)) :
    defaultGuildAlias reg ≠ [] := by
  have hfb : (match reg.head? with
      | some kv => if kv.1.isEmpty then str "default" else kv.1
      | none => str "default") ≠ [] := by
    cases hh : reg.head? with
    | none => decide
    | some kv =>
      by_cases hk : kv.1.isEmpty
      · simp only [hk, if_true]; decide
      · simp only [hk, Bool.false_eq_true, if_false]
        cases hkv : kv.1 with
        | nil => rw [hkv] at hk; exact absurd rfl hk
        | cons x xs => simp
  simp only [defaultGuildAlias]
  cases hl : List.lookup (str "personal") reg with
  | none => exact hfb
  | some v =>
    by_cases hv : v.isEmpty
    · simp only [hv, if_true]; exact hfb
    · simp only [hv, Bool.false_eq_true, if_false]; decide

/-- C5 as stated is refuted by a registry whose first key carries an
upper-case letter: with registry `{"Foo": "g1"}` and `g1` cached, the
default alias is `Foo`, `resolveServer()` returns the guild, yet
`resolveServer("Foo")` fails (the alias branch looks up the lower-cased
identifier among verbatim keys and misses). -/
theorem claim_C5_counterexample :
    defaultGuildAlias [(str "Foo", str "g1")] = str "Foo" ∧
    resolveGuild [(str "Foo", str "g1")] [witGuild] none = Except.ok witGuild ∧
    (resolveGuild [(str "Foo", str "g1")] [witGuild]
      (some (defaultGuildAlias [(str "Foo", str "g1")]))).toOption = none :=
  ⟨by decide, by decide, by decide⟩

/-- C5 (amended): `resolveServer()` with no argument returns the same server
handle as `resolveServer(defaultAlias)` — failing together when the handle
is unavailable, though with differently worded messages — provided the
default alias is an all-lower-case key of the ServerRegistry mapped to a
non-empty ID (the configuration shape the code expects; otherwise the two
calls can diverge, as the counterexample shows). -/
theorem claim_C5_default_equiv (reg : List (List Nat × List Nat)) (guilds : List Guild)
    (gid : List Nat)
    (hlow : jsToLower (defaultGuildAlias reg) = defaultGuildAlias reg)
    (hl : List.lookup (defaultGuildAlias reg) reg = some gid)
    (hg : gid ≠ []) :
    (resolveGuild reg guilds none).toOption =
      (resolveGuild reg guilds (some (defaultGuildAlias reg))).toOption := by
  have hA := defaultGuildAlias_ne_nil reg
  have h1 : jsTruthy (some (defaultGuildAlias reg)) = true := jsTruthy_some_ne _ hA
  have hge : gid.isEmpty = false := by
    cases gid with
    | nil => exact absurd rfl hg
    | cons x xs => rfl
  simp only [resolveGuild, jsTruthy, Bool.false_eq_true, if_false, h1, if_true,
    Option.getD_some, hlow, hl, hge, resolveGuildDefault]
  rw [isEmpty_false_of_ne _ hA]
  cases findGuild guilds gid <;> rfl

/-- C5 witness: with registry `{"personal": "g1"}` and `g1` cached, the
no-argument call and the explicit default-alias call agree. -/
theorem claim_C5_default_equiv_witness :
    (resolveGuild [(str "personal", str "g1")] [witGuild] none).toOption =
      (resolveGuild [(str "personal", str "g1")] [witGuild]
        (some (defaultGuildAlias [(str "personal", str "g1")]))).toOption :=
  claim_C5_default_equiv [(str "personal", str "g1")] [witGuild] (str "g1")
    (by decide) (by decide) (by decide)

theorem lowerUnit_idem (u : Nat) : lowerUnit (lowerUnit u) = lowerUnit u := by
  simp only [lowerUnit]
  split_ifs <;> omega

theorem jsToLower_idem (l : List Nat) : jsToLower (jsToLower l) = jsToLower l := by
  induction l with
  | nil => rfl
  | cons a as ih =>
    simp only [jsToLower, List.map_cons] at *
    rw [lowerUnit_idem, ih]

/-- C9 as stated is refuted at startup: the user-mapping table loaded from a
configuration with the key `John` is a reachable state whose key is not
lower-cased (the source lower-cases only keys added at runtime, not the
parsed configuration). -/
theorem claim_C9_counterexample :
    ReachableMappings [(str "John", str "1")] [(str "John", str "1")] ∧
    ¬ keysLowered [(str "John", str "1")] :=
  ⟨ReachableMappings.init, by decide⟩

/-- C9 (amended): every key added at runtime through the add-user-alias
operation is stored lower-cased — so all-lower-case keys is preserved from
any startup configuration whose own keys are lower-case — an added binding
is retrievable under any casing of its alias, and every resolveUser lookup
consults the table at the lower-cased query.  (Keys loaded from
configuration are stored verbatim, hence the lower-case requirement on the
startup configuration.) -/
theorem claim_C9_mapping_keys (cfg t : List (List Nat × List Nat))
    (h : ReachableMappings cfg t) (hc : keysLowered cfg) :
    keysLowered t ∧
    (∀ tbl aliasName uid q, jsToLower q = jsToLower aliasName →
      List.lookup (jsToLower q) (addUserMappingTable tbl aliasName uid) = some uid) ∧
    (∀ w q mid u, w.ready = true →
      List.lookup (jsToLower q) w.userMappings = some mid → mid ≠ [] →
      List.lookup mid w.usersById = some u → resolveUser w q = Except.ok u) := by
  refine ⟨?_, ?_, ?_⟩
  · induction h with
    | init => exact hc
    | add t2 aliasName uid ht ih =>
      intro kv hkv
      rcases List.mem_cons.mp hkv with hkv | hkv
      · rw [hkv]
        exact jsToLower_idem aliasName
      · exact ih kv hkv
  · intro tbl aliasName uid q hq
    simp only [addUserMappingTable, List.lookup, hq, beq_self_eq_true]
  · intro w q mid u hready hlook hmid hu
    simp only [resolveUser, waitForDiscord, hready, if_true, hlook,
      isEmpty_false_of_ne mid hmid, Bool.false_eq_true, if_false, hu]

/-- A ready world carrying one runtime-added user mapping, for the C9
witness. -/
def witMapWorld : World :=
  { ready := true, registry := [], userMappings := [(str "bob", str "2")]
    defaultChannelId := none, guilds := [], files := []
    usersById := [(str "2", witUser)], memberSearch := fun _ _ => []
    membersList := fun _ _ => [], messagesFetch := fun _ _ => []
    sendOutcome := fun _ _ => none, dmOutcome := fun _ _ => none }

/-- C9 witness: a runtime add of `Bob` onto a lower-case startup table keeps
every key lower-cased, the binding is retrievable as `BOB`, and a
resolveUser call with query `Bob` consults the table at `bob` and returns
the mapped user. -/
theorem claim_C9_mapping_keys_witness :
    keysLowered (addUserMappingTable [(str "john", str "1")] (str "Bob") (str "2")) ∧
    List.lookup (jsToLower (str "BOB"))
      (addUserMappingTable [(str "john", str "1")] (str "Bob") (str "2")) = some (str "2") ∧
    resolveUser witMapWorld (str "Bob") = Except.ok witUser := by
  have h := claim_C9_mapping_keys [(str "john", str "1")]
    (addUserMappingTable [(str "john", str "1")] (str "Bob") (str "2"))
    (ReachableMappings.add _ _ _ ReachableMappings.init) (by decide)
  exact ⟨h.1, h.2.1 [(str "john", str "1")] (str "Bob") (str "2") (str "BOB") (by decide),
    h.2.2 witMapWorld (str "Bob") (str "2") witUser rfl (by decide) (by decide) (by decide)⟩

theorem resolveGuildTail_error_contains (reg : List (List Nat × List Nat))
    (guilds : List Guild) (s al e : List Nat)
    (h : resolveGuildTail reg guilds s al = Except.error e) : s <:+: e := by
  simp only [resolveGuildTail] at h
  cases hd : (if jsAllDigits s = true then findGuild guilds s else none) with
  | some g => simp only [hd] at h; exact Except.noConfusion h
  | none =>
    simp only [hd] at h
    cases hf : guilds.find? (fun g => jsToLower g.name == al) with
    | some g => simp only [hf] at h; exact Except.noConfusion h
    | none =>
      simp only [hf, Except.error.injEq] at h
      rw [← h]
      exact mid_isInf _ _ s

theorem resolveGuild_error_contains (reg : List (List Nat × List Nat)) (guilds : List Guild)
    (s e : List Nat) (h : resolveGuild reg guilds (some s) = Except.error e) : s <:+: e := by
  by_cases hs : s = []
  · exact hs ▸ ⟨[], e, by simp⟩
  · have h1 : jsTruthy (some s) = true := jsTruthy_some_ne s hs
    simp only [resolveGuild, h1, if_true, Option.getD_some] at h
    cases hl : List.lookup (jsToLower s) reg with
    | none =>
      simp only [hl] at h
      exact resolveGuildTail_error_contains _ _ _ _ _ h
    | some gid =>
      simp only [hl] at h
      by_cases hg : gid.isEmpty
      · simp only [hg, if_true] at h
        exact resolveGuildTail_error_contains _ _ _ _ _ h
      · have hgf : gid.isEmpty = false := by simpa using hg
        simp only [hgf, Bool.false_eq_true, if_false] at h
        cases hf : findGuild guilds gid with
        | some g => simp only [hf] at h; exact Except.noConfusion h
        | none =>
          simp only [hf, Except.error.injEq] at h
          rw [← h]
          exact mid_isInf _ _ s

theorem resolveChannel_error_contains (q : List Nat) (g : Guild) (e : List Nat)
    (h : resolveChannel q g = Except.error e) : q <:+: e := by
  simp only [resolveChannel] at h
  cases h1 : phaseLookup g.channelsCache q (jsToLower (stripHash q)) with
  | some c => simp only [h1] at h; exact Except.noConfusion h
  | none =>
    simp only [h1] at h
    cases h2 : phaseLookup g.channelsFetched q (jsToLower (stripHash q)) with
    | some c => simp only [h2] at h; exact Except.noConfusion h
    | none =>
      simp only [h2, Except.error.injEq] at h
      rw [← h]
      exact mid_isInf _ _ q

theorem resolveUserTail_error_contains (w : World) (q e : List Nat)
    (h : resolveUserTail w q = Except.error e) : q <:+: e := by
  simp only [resolveUserTail] at h
  by_cases hd : jsAllDigits q = true
  · simp only [hd, if_true] at h
    cases hu : List.lookup q w.usersById with
    | some u => simp only [hu] at h; exact Except.noConfusion h
    | none =>
      simp only [hu, Except.error.injEq] at h
      rw [← h]
      exact mid_isInf _ _ q
  · have hdf : jsAllDigits q = false := by simpa using hd
    simp only [hdf, Bool.false_eq_true, if_false] at h
    cases hs : searchGuilds w q w.registry with
    | some u => simp only [hs] at h; exact Except.noConfusion h
    | none =>
      simp only [hs, Except.error.injEq] at h
      rw [← h]
      exact mid_isInf _ _ q

theorem resolveUser_error_contains (w : World) (q e : List Nat) (hready : w.ready = true)
    (h : resolveUser w q = Except.error e) : q <:+: e := by
  simp only [resolveUser, waitForDiscord, hready, if_true] at h
  cases hl : List.lookup (jsToLower q) w.userMappings with
  | none =>
    simp only [hl] at h
    exact resolveUserTail_error_contains w q e h
  | some mid =>
    simp only [hl] at h
    by_cases hm : mid.isEmpty
    · simp only [hm, if_true] at h
      exact resolveUserTail_error_contains w q e h
    · have hmf : mid.isEmpty = false := by simpa using hm
      simp only [hmf, Bool.false_eq_true, if_false] at h
      cases hu : List.lookup mid w.usersById with
      | some u => simp only [hu] at h; exact Except.noConfusion h
      | none =>
        simp only [hu, Except.error.injEq] at h
        rw [← h]
        exact mid_isInf _ _ q

/-- C1: every tool invocation yields a reply at the dispatch boundary — a
success payload when the handler run succeeds, and otherwise an error-tagged
payload whose text contains the failing error's message, for every failure
kind the handlers can raise (readiness timeout, resolution failures, missing
local file, unknown tool, remote-call failure); no exception escapes past
the boundary.  Resolution failures carry the literal queried identifier in
their message: server, channel, and user resolution errors each contain the
identifier that was queried. -/
theorem claim_C1_dispatch_boundary :
    (∀ w c, (∃ r, runTool w c = Except.ok r ∧
        handleCallTool w c = { text := r.text, out := r.out, isError := false }) ∨
      (∃ e, runTool w c = Except.error e ∧
        handleCallTool w c =
          { text := str "Error: " ++ e, out := Output.plain, isError := true } ∧
        e <:+: (handleCallTool w c).text)) ∧
    (∀ reg guilds s e, resolveGuild reg guilds (some s) = Except.error e → s <:+: e) ∧
    (∀ q g e, resolveChannel q g = Except.error e → q <:+: e) ∧
    (∀ w q e, w.ready = true → resolveUser w q = Except.error e → q <:+: e) := by
  refine ⟨fun w c => ?_, resolveGuild_error_contains, resolveChannel_error_contains,
    fun w q e h1 h2 => resolveUser_error_contains w q e h1 h2⟩
  cases hr : runTool w c with
  | ok r => exact Or.inl ⟨r, rfl, by simp [handleCallTool, hr]⟩
  | error e =>
    have hh : handleCallTool w c =
        { text := str "Error: " ++ e, out := Output.plain, isError := true } := by
      simp [handleCallTool, hr]
    exact Or.inr ⟨e, rfl, hh, by rw [hh]; exact ⟨str "Error: ", [], by simp⟩⟩

/-- C1 witness: an unknown tool name produces the tagged error reply with
the message embedded, and each resolver's failure message contains the
queried identifier. -/
theorem claim_C1_dispatch_boundary_witness :
    ((∃ r, runTool witWorld (ToolCall.unknown (str "nope")) = Except.ok r ∧
        handleCallTool witWorld (ToolCall.unknown (str "nope")) =
          { text := r.text, out := r.out, isError := false }) ∨
      (∃ e, runTool witWorld (ToolCall.unknown (str "nope")) = Except.error e ∧
        handleCallTool witWorld (ToolCall.unknown (str "nope")) =
          { text := str "Error: " ++ e, out := Output.plain, isError := true } ∧
        e <:+: (handleCallTool witWorld (ToolCall.unknown (str "nope"))).text)) ∧
    (str "noguild") <:+:
      (str "Server \"" ++ str "noguild" ++
        (str "\" not found. Available: " ++ joinComma [str "personal"])) ∧
    (str "nochan") <:+:
      (str "Channel \"" ++ str "nochan" ++ (str "\" not found in " ++ str "Home")) ∧
    (str "nouser") <:+: (str "User \"" ++ str "nouser" ++ str "\" not found") :=
  ⟨claim_C1_dispatch_boundary.1 witWorld (ToolCall.unknown (str "nope")),
   claim_C1_dispatch_boundary.2.1 [(str "personal", str "g1")] [witGuild] (str "noguild") _
     (by decide),
   claim_C1_dispatch_boundary.2.2.1 (str "nochan") witGuild _ (by decide),
   claim_C1_dispatch_boundary.2.2.2 witWorld (str "nouser") _ rfl (by decide)⟩
